import Mathlib

/-!
Verification development for `process_audio.py`, the audio-normalisation
script of the full-duplex-bench site repository.

The script combines pairs of mono WAV files into stereo WAV files (function
`combine_wav_files`, a tiered strategy: ffmpeg, then sox, then Python's
`wave`/`audioop` modules), and walks dataset-specific source trees producing
`sample_<n>.wav` outputs (`process_audio_files`, `process_turntaking_models`,
`process_numeric_directories`), with a UUID-shaped directory recogniser
(`extract_sample_id`).

The shallow embedding below models: raw audio payloads as lists of bytes
(`List Nat`), the `audioop` primitives the script calls (`tostereo`,
`tomono`, `ratecv` — the latter kept as an explicit function parameter since
only its invocation pattern, never its numeric output, matters to the
script's observable claims), WAV files as parsed header parameters plus a
raw payload, the filesystem as an association list, and the external tools
(ffmpeg / sox) as an explicit world record describing their availability,
exit code, and produced file.
-/

namespace ProcessAudio

/-! ### Byte-level utilities modelling the `audioop` primitives -/

/-- Splits a byte list into consecutive chunks of `w` bytes (the final chunk
may be shorter).  Fuel-indexed so that the definition is structural and
reduces inside the kernel; `chunks` instantiates the fuel with the list
length, which suffices whenever `1 ≤ w`. -/
def chunksFuel (w : Nat) : Nat → List Nat → List (List Nat)
  | 0, _ => []
  | _ + 1, [] => []
  | fuel + 1, x :: xs => (x :: xs).take w :: chunksFuel w fuel ((x :: xs).drop w)

/-- Consecutive `w`-byte chunks of a byte list (meaningful for `1 ≤ w`). -/
def chunks (w : Nat) (l : List Nat) : List (List Nat) :=
  chunksFuel w l.length l

/-- Result of `audioop.tostereo(data, w, 1, 1)` on the byte level: every
`w`-byte sample is emitted twice in a row (factor 1 leaves sample values
unchanged, so no clamping occurs). -/
def interleave2 (w : Nat) (l : List Nat) : List Nat :=
  List.flatten ((chunks w l).map (fun c => c ++ c))

/-- De-interleaving (specification-side): the left channel of a stereo byte
stream of sample width `w` — the first `w` bytes of every `2*w`-byte frame. -/
def leftCh (w : Nat) (s : List Nat) : List Nat :=
  List.flatten ((chunks (2 * w) s).map (fun c => c.take w))

/-- De-interleaving (specification-side): the right channel of a stereo byte
stream of sample width `w` — the last `w` bytes of every `2*w`-byte frame. -/
def rightCh (w : Nat) (s : List Nat) : List Nat :=
  List.flatten ((chunks (2 * w) s).map (fun c => c.drop w))

/-- Python exception kinds that `combine_wav_files` can raise internally.
All four are subclasses of `Exception` in Python's hierarchy (see
`isExcSubclass`). -/
inductive PyErr where
  | fileNotFound
  | calledProcess
  | waveError
  | audioopError
deriving DecidableEq

/-- Sample widths accepted by the `audioop` module (`size` must be 1, 2, 3
or 4; anything else raises `audioop.error`). -/
def widthOK (w : Nat) : Bool :=
  (w == 1) || (w == 2) || (w == 3) || (w == 4)

/-- Model of `audioop.tostereo(data, width, 1, 1)` (line 148 of the source):
raises `audioop.error` on an unsupported width or when the byte length is
not a whole number of samples, else duplicates every sample. -/
def tostereo11 (data : List Nat) (width : Nat) : Except PyErr (List Nat) :=
  if widthOK width then
    if data.length % width = 0 then
      Except.ok (interleave2 width data)
    else Except.error PyErr.audioopError
  else Except.error PyErr.audioopError

/-- Model of `audioop.tomono(data, width, 1, 0)` (lines 130/132): raises on
an unsupported width or when the byte length is not a whole number of
two-channel frames, else keeps the first (left) sample of every frame. -/
def tomono10 (data : List Nat) (width : Nat) : Except PyErr (List Nat) :=
  if widthOK width then
    if data.length % (width * 2) = 0 then
      Except.ok (List.flatten ((chunks (width * 2) data).map (fun c => c.take width)))
    else Except.error PyErr.audioopError
  else Except.error PyErr.audioopError

/-- Shape of the rate-conversion kernel: `audioop.ratecv(data, width, 1,
inRate, outRate, None)[0]`.  The numeric content of the resampled bytes is
irrelevant to every claim about the script, so the kernel is threaded
through as a parameter; `ratecvM` wraps it with the argument checks the C
implementation performs. -/
def RateCv : Type :=
  List Nat → Nat → Nat → Nat → List Nat

/-- Argument checking of `audioop.ratecv` (unsupported width, misaligned
byte length, or a non-positive rate raise `audioop.error`) around the
abstract conversion kernel. -/
def ratecvM (rc : RateCv) (data : List Nat) (width inRate outRate : Nat) :
    Except PyErr (List Nat) :=
  if widthOK width then
    if data.length % width = 0 then
      if 0 < inRate ∧ 0 < outRate then
        Except.ok (rc data width inRate outRate)
      else Except.error PyErr.audioopError
    else Except.error PyErr.audioopError
  else Except.error PyErr.audioopError

/-! ### WAV files as read by Python's `wave` module -/

/-- A WAV file as the `wave` module presents it: header parameters
(`getframerate`, `getsampwidth`, `getnchannels`, `getnframes`) plus the raw
data-chunk bytes actually present in the file.  A truncated file is one
whose `payload` is shorter than `nframes * nchannels * sampwidth`. -/
structure WavBlob where
  rate : Nat
  sampwidth : Nat
  nchannels : Nat
  nframes : Nat
  payload : List Nat
deriving DecidableEq

/-- Model of `wav.readframes(wav.getnframes())` (lines 125–126): returns at
most `nframes` frames' worth of bytes, fewer if the file is truncated. -/
def readframes (b : WavBlob) : List Nat :=
  b.payload.take (b.nframes * b.nchannels * b.sampwidth)

/-- A well-formed (non-truncated, non-padded) WAV blob: the payload length
is exactly the frame count times the frame size. -/
def wellFormed (b : WavBlob) : Prop :=
  b.payload.length = b.nframes * b.nchannels * b.sampwidth

/-! ### Tier 3: the in-process `wave`/`audioop` combination path
(lines 93–152 of `combine_wav_files`) -/

/-- The in-process combination pipeline of `combine_wav_files` once both
inputs are open (source lines 95–149): read all frames of both inputs,
reduce non-mono inputs with `tomono`, resample the right stream when the
rates differ, byte-pad the shorter buffer with zeros, then build the output
with `tostereo(left_data, left_width, 1, 1)` and the left stream's rate and
width.  Note that, exactly as in the source, the padded right buffer is
never read again after the padding step: `tostereo` duplicates the left
buffer into both output channels.  The output `nframes` is the written byte
count divided by the output frame size, as the `wave` module records it on
close. -/
def tier3 (rc : RateCv) (lw rw : WavBlob) : Except PyErr WavBlob :=
  let leftData0 := readframes lw
  let rightData0 := readframes rw
  match (if lw.nchannels ≠ 1 then tomono10 leftData0 lw.sampwidth
         else Except.ok leftData0) with
  | Except.error e => Except.error e
  | Except.ok leftData1 =>
    match (if rw.nchannels ≠ 1 then tomono10 rightData0 rw.sampwidth
           else Except.ok rightData0) with
    | Except.error e => Except.error e
    | Except.ok rightData1 =>
      match (if lw.rate ≠ rw.rate then
               ratecvM rc rightData1 rw.sampwidth rw.rate lw.rate
             else Except.ok rightData1) with
      | Except.error e => Except.error e
      | Except.ok rightData2 =>
        let leftData2 :=
          if leftData1.length < rightData2.length then
            leftData1 ++ List.replicate (rightData2.length - leftData1.length) 0
          else leftData1
        match tostereo11 leftData2 lw.sampwidth with
        | Except.error e => Except.error e
        | Except.ok stereo =>
          Except.ok ⟨lw.rate, lw.sampwidth, 2,
            stereo.length / (2 * lw.sampwidth), stereo⟩

/-! ### Filesystem and external-tool world for `combine_wav_files` -/

/-- Contents of a path in the modelled filesystem: either a readable WAV
file, or the zero-byte placeholder that `wave.open(path, 'wb')` creates
immediately and that survives when the combination aborts before any frame
is flushed (the `wave` module only writes the header lazily). -/
inductive FileVal where
  | wav (b : WavBlob)
  | stub
deriving DecidableEq

/-- Filesystem: an association list from paths to file contents; the most
recent binding of a path shadows older ones. -/
abbrev FS : Type := List (String × FileVal)

/-- Looks a path up in the filesystem. -/
def fsGet : FS → String → Option FileVal
  | [], _ => none
  | (k, v) :: fs, p => if k = p then some v else fsGet fs p

/-- Writes (creates or overwrites) a path in the filesystem. -/
def fsSet (fs : FS) (k : String) (v : FileVal) : FS :=
  (k, v) :: fs

/-- Model of `wave.open(path, 'rb')`: a missing path raises
`FileNotFoundError`; a file that is not a parseable WAV raises
`wave.Error`; otherwise the parsed parameters and payload are available. -/
def openWav (fs : FS) (p : String) : Except PyErr WavBlob :=
  match fsGet fs p with
  | none => Except.error PyErr.fileNotFound
  | some (FileVal.wav b) => Except.ok b
  | some FileVal.stub => Except.error PyErr.waveError

/-- State of the external tools as `combine_wav_files` observes them:
whether the `ffmpeg` / `sox` executables exist (a missing executable makes
`subprocess.run` raise `FileNotFoundError`), the exit code their merge
invocation would return, and the file the tool would produce at the output
path on a successful run. -/
structure World where
  ffmpegPresent : Bool
  ffmpegExit : Nat
  ffmpegResult : WavBlob
  soxPresent : Bool
  soxExit : Nat
  soxResult : WavBlob

/-- The body of `combine_wav_files` (source lines 59–152) up to but not
including the outermost `except Exception` handler.  Tier 1 (lines 62–75):
if `is_ffmpeg_available()` (which only probes whether the executable
exists), run the merge with `check=True` — a non-zero exit raises
`CalledProcessError` out of this body.  Tier 2 (lines 78–90): probe sox
with `subprocess.run`; only a `FileNotFoundError` (absent executable) is
caught and falls through to Tier 3; a non-zero exit of the sox merge again
raises out of the body.  Tier 3 (lines 93–152): open both inputs, then open
the output for writing (which immediately creates a zero-byte file), run
the in-process pipeline, and flush the frames on success.  The returned
pair is the filesystem after the body together with the body's outcome. -/
def combineInner (w : World) (rc : RateCv) (fs : FS) (l r o : String) :
    FS × Except PyErr Unit :=
  if w.ffmpegPresent then
    if w.ffmpegExit = 0 then (fsSet fs o (FileVal.wav w.ffmpegResult), Except.ok ())
    else (fs, Except.error PyErr.calledProcess)
  else if w.soxPresent then
    if w.soxExit = 0 then (fsSet fs o (FileVal.wav w.soxResult), Except.ok ())
    else (fs, Except.error PyErr.calledProcess)
  else
    match openWav fs l with
    | Except.error e => (fs, Except.error e)
    | Except.ok lb =>
      match openWav fs r with
      | Except.error e => (fs, Except.error e)
      | Except.ok rb =>
        let fs1 := fsSet fs o FileVal.stub
        match tier3 rc lb rb with
        | Except.ok ob => (fsSet fs1 o (FileVal.wav ob), Except.ok ())
        | Except.error e => (fs1, Except.error e)

/-- Python's exception hierarchy, restricted to the errors the body can
raise: `FileNotFoundError`, `subprocess.CalledProcessError`, `wave.Error`
and `audioop.error` are all subclasses of `Exception`. -/
def isExcSubclass : PyErr → Bool
  | PyErr.fileNotFound => true
  | PyErr.calledProcess => true
  | PyErr.waveError => true
  | PyErr.audioopError => true

/-- Model of `combine_wav_files(left_file, right_file, output_file)`:
the body wrapped in `try ... except Exception: return False` (lines 59 and
153–155).  The second component is `some true` / `some false` for a normal
boolean return, and `none` for an exception that would escape the function
(which, per `combine_never_raises` below, cannot happen). -/
def combine_wav_files (w : World) (rc : RateCv) (fs : FS) (l r o : String) :
    FS × Option Bool :=
  match combineInner w rc fs l r o with
  | (fs1, Except.ok _) => (fs1, some true)
  | (fs1, Except.error e) =>
    if isExcSubclass e then (fs1, some false) else (fs1, none)

/-! ### `extract_sample_id` (source lines 50–55) -/

/-- Lower-case hexadecimal digit, the character class `[0-9a-f]` of the
UUID regular expression. -/
def isHexLower (c : Char) : Bool :=
  (decide ('0' ≤ c) && decide (c ≤ '9')) || (decide ('a' ≤ c) && decide (c ≤ 'f'))

/-- Consumes exactly `n` lower-case hex characters from the front of the
input, returning the rest; `none` on any mismatch.  Models one `[0-9a-f]{n}`
group of the regular expression. -/
def eatHex : Nat → List Char → Option (List Char)
  | 0, l => some l
  | _ + 1, [] => none
  | n + 1, c :: l => if isHexLower c then eatHex n l else none

/-- Consumes one literal dash from the front of the input. -/
def eatDash : List Char → Option (List Char)
  | [] => none
  | c :: l => if c = '-' then some l else none

/-- Model of `re.match(r'[0-9a-f]{8}-[0-9a-f]{4}-[0-9a-f]{4}-[0-9a-f]{4}-[0-9a-f]{12}', name)`:
`re.match` anchors at the start only, so any trailing characters after the
36-character UUID shape are accepted. -/
def matchUuid (l : List Char) : Bool :=
  (((((((((eatHex 8 l).bind eatDash).bind (eatHex 4)).bind eatDash).bind
    (eatHex 4)).bind eatDash).bind (eatHex 4)).bind eatDash).bind
    (eatHex 12)).isSome

/-- Character-list core of `extract_sample_id`: on a UUID-shaped prefix
return the first 8 characters of the whole name, else `None`. -/
def extractId (l : List Char) : Option (List Char) :=
  if matchUuid l then some (l.take 8) else none

/-- Model of `extract_sample_id(directory_name)` (source lines 50–55). -/
def extract_sample_id (s : String) : Option String :=
  (extractId s.data).map (fun cs => String.mk cs)

/-- Specification-side shape of one `[0-9a-f]{n}` group: `n` lower-case hex
characters. -/
def hexGroup (n : Nat) (g : List Char) : Prop :=
  g.length = n ∧ ∀ c ∈ g, isHexLower c = true

/-- Specification-side UUID shape: five dash-separated lower-case hex
groups of lengths 8, 4, 4, 4 and 12. -/
def uuidShaped (u : List Char) : Prop :=
  ∃ a b c d e, hexGroup 8 a ∧ hexGroup 4 b ∧ hexGroup 4 c ∧ hexGroup 4 d ∧
    hexGroup 12 e ∧
    u = a ++ ('-' :: (b ++ ('-' :: (c ++ ('-' :: (d ++ ('-' :: e)))))))

/-! ### Walker models -/

/-- The per-iteration observables of the `candor_turn_freeze_omni` loop of
`process_turntaking_models` (source lines 291–311): whether the entry is a
directory with a UUID-shaped name, whether `input.wav` / `output.wav` exist
inside it, and whether `combine_wav_files` succeeds on them. -/
structure FoItem where
  isUuidDir : Bool
  hasInput : Bool
  hasOutput : Bool
  combineOk : Bool
deriving DecidableEq

/-- Sample numbers under which the `candor_turn_freeze_omni` loop (source
lines 291–311) successfully materialises an output file, starting from
counter value `c`: the counter `sample_count` is incremented once per
UUID-named directory, at the end of the iteration, regardless of whether
the files existed or the combination succeeded. -/
def foNumbers : Nat → List FoItem → List Nat
  | _, [] => []
  | c, i :: rest =>
    if i.isUuidDir then
      (if i.hasInput && i.hasOutput && i.combineOk then [c] else []) ++
        foNumbers (c + 1) rest
    else foNumbers c rest

/-- The per-iteration observables of the `candor_turn_dgslm_moshi` loop of
`process_turntaking_models` (source lines 252–276): whether the entry is a
UUID-named directory, and whether `dgslm_output_stereo.wav` /
`moshi_out_turn_taking.wav` exist inside it. -/
structure DmItem where
  isUuidDir : Bool
  hasStereo : Bool
  hasMoshi : Bool
deriving DecidableEq

/-- Sample numbers written into the dGSLM and moshi target directories by
the `candor_turn_dgslm_moshi` loop (source lines 252–276), starting from
counter value `c`: one shared counter, incremented once per UUID-named
directory whether or not either copy happened. -/
def dmNumbers : Nat → List DmItem → List Nat × List Nat
  | _, [] => ([], [])
  | c, i :: rest =>
    if i.isUuidDir then
      let p := dmNumbers (c + 1) rest
      ((if i.hasStereo then [c] else []) ++ p.1,
       (if i.hasMoshi then [c] else []) ++ p.2)
    else dmNumbers c rest

/-- The per-iteration observables of the `combine=True` branch of
`process_numeric_directories` (source lines 386–405): whether the left and
right input files exist and whether the combination succeeds. -/
structure NumItem where
  hasLeft : Bool
  hasRight : Bool
  combineOk : Bool
deriving DecidableEq

/-- Sample numbers written by the `combine=True` loop of
`process_numeric_directories` (source lines 386–405), starting from counter
value `c`: here `sample_count` is incremented only after a successful
combination. -/
def numericNumbers : Nat → List NumItem → List Nat
  | _, [] => []
  | c, i :: rest =>
    if i.hasLeft && i.hasRight && i.combineOk then
      c :: numericNumbers (c + 1) rest
    else numericNumbers c rest

/-- Number of items of a `process_numeric_directories` run that materialise
an output. -/
def numericSuccCount (items : List NumItem) : Nat :=
  items.countP (fun i => i.hasLeft && i.hasRight && i.combineOk)

/-- Numeric value of a digit string, as Python's `int` computes it. -/
def strNatVal (s : String) : Nat :=
  s.data.foldl (fun a c => a * 10 + (c.toNat - 48)) 0

/-- Model of Python's `str.isdigit` for ASCII names: non-empty and all
characters decimal digits. -/
def isDigitName (s : String) : Bool :=
  !s.data.isEmpty && s.data.all (fun c => decide ('0' ≤ c) && decide (c ≤ '9'))

/-- Stable insertion of a name into a list sorted by numeric value. -/
def ordIns (a : String) : List String → List String
  | [] => [a]
  | b :: l => if strNatVal a ≤ strNatVal b then a :: b :: l else b :: ordIns a l

/-- Stable sort by numeric value; agrees with Python's stable `list.sort`
with `key=int` on every input. -/
def sortNumeric : List String → List String
  | [] => []
  | a :: l => ordIns a (sortNumeric l)

/-- Model of the directory selection and ordering of
`process_numeric_directories` (source lines 381–384): keep the entries that
are all-digit names and directories, then sort them stably by `int` value. -/
def numericDirOrder (entries : List String) (isDir : String → Bool) : List String :=
  sortNumeric (entries.filter (fun s => isDigitName s && isDir s))

/-! ### Passthrough copy (`shutil.copy2`) -/

/-- Filesystem of raw byte files, for the passthrough/copy paths. -/
abbrev ByteFS : Type := List (String × List Nat)

/-- Looks a path up in a byte filesystem. -/
def bget : ByteFS → String → Option (List Nat)
  | [], _ => none
  | (k, v) :: fs, p => if k = p then some v else bget fs p

/-- Model of `shutil.copy2(src, dst)`: reads the source bytes and writes
them verbatim to the destination; the only failure is a missing source.  No
parsing, validation or re-encoding of the bytes takes place. -/
def copy2 (fs : ByteFS) (src dst : String) : Option ByteFS :=
  (bget fs src).map (fun b => (dst, b) :: fs)

/-- The turntaking/dGSLM branch of `process_audio_files` (source lines
202–210): if the pre-merged stereo file exists it is copied verbatim with
`shutil.copy2` and the counter advances; otherwise nothing is written. -/
def turnDgslmStep (fs : ByteFS) (stereoPath outputFile : String) (c : Nat) :
    ByteFS × Nat :=
  match bget fs stereoPath with
  | some b => ((outputFile, b) :: fs, c + 1)
  | none => (fs, c)

/-! ### Concrete instances used by witnesses and counterexamples -/

/-- Identity rate-conversion kernel, used where the resampled values are
irrelevant (all concrete cases below have equal rates, so the kernel is
never consulted). -/
def rcId : RateCv := fun d _ _ _ => d

/-- A mono 8 kHz, 8-bit, 2-frame input with samples 10, 20. -/
def blobA : WavBlob := ⟨8000, 1, 1, 2, [10, 20]⟩

/-- A mono 8 kHz, 8-bit, 2-frame input with samples 30, 40. -/
def blobB : WavBlob := ⟨8000, 1, 1, 2, [30, 40]⟩

/-- World in which neither ffmpeg nor sox is installed: Tier 3 runs. -/
def worldNoTools : World := ⟨false, 0, blobA, false, 0, blobA⟩

/-- World in which ffmpeg is installed but its merge exits non-zero, while
sox is installed and would succeed. -/
def worldFfmpegFails : World := ⟨true, 1, blobA, true, 0, blobA⟩

/-- Filesystem holding the two mono inputs `blobA` and `blobB`. -/
def fsAB : FS := [("left.wav", FileVal.wav blobA), ("right.wav", FileVal.wav blobB)]

/-- A well-formed mono 16-bit, 2-frame input (4 payload bytes). -/
def blobL2 : WavBlob := ⟨8000, 2, 1, 2, [1, 0, 2, 0]⟩

/-- A truncated mono 16-bit input: the header declares 3 frames (6 bytes)
but only 5 payload bytes are present in the file. -/
def blobTrunc : WavBlob := ⟨8000, 2, 1, 3, [0, 0, 0, 0, 0]⟩

/-- Filesystem holding `blobL2` and the truncated `blobTrunc`. -/
def fsTrunc : FS := [("left.wav", FileVal.wav blobL2), ("right.wav", FileVal.wav blobTrunc)]

/-- A well-formed mono 8-bit, 5-frame input (5 payload bytes). -/
def blobR1 : WavBlob := ⟨8000, 1, 1, 5, [1, 2, 3, 4, 5]⟩

/-- Filesystem holding the width-2 input `blobL2` and the width-1 input
`blobR1`, both well-formed. -/
def fsWidthMix : FS := [("left.wav", FileVal.wav blobL2), ("right.wav", FileVal.wav blobR1)]

/-! ### Helper lemmas about chunking and interleaving -/

theorem chunksFuel_congr (w : Nat) (hw : 1 ≤ w) :
    ∀ f₁ f₂ l, List.length l ≤ f₁ → List.length l ≤ f₂ →
      chunksFuel w f₁ l = chunksFuel w f₂ l := by
  intro f₁
  induction f₁ with
  | zero =>
    intro f₂ l h1 _
    have hl : l = [] := List.eq_nil_of_length_eq_zero (Nat.le_zero.mp h1)
    subst hl
    cases f₂ <;> rfl
  | succ f ih =>
    intro f₂ l h1 h2
    cases l with
    | nil => cases f₂ <;> rfl
    | cons x xs =>
      cases f₂ with
      | zero => simp at h2
      | succ f2 =>
        simp only [chunksFuel]
        congr 1
        apply ih
        · simp only [List.length_drop, List.length_cons] at *
          omega
        · simp only [List.length_drop, List.length_cons] at *
          omega

theorem chunks_cons (w : Nat) (hw : 1 ≤ w) (x : Nat) (xs : List Nat) :
    chunks w (x :: xs) =
      (x :: xs).take w :: chunks w ((x :: xs).drop w) := by
  show chunksFuel w (x :: xs).length (x :: xs) = _
  have h1 : (x :: xs).length = xs.length + 1 := rfl
  rw [h1]
  show (x :: xs).take w :: chunksFuel w xs.length ((x :: xs).drop w) = _
  congr 1
  apply chunksFuel_congr w hw
  · simp only [List.length_drop, List.length_cons]
    omega
  · exact Nat.le_refl _

theorem chunks_append (w : Nat) (hw : 1 ≤ w) (a b : List Nat)
    (ha : a.length = w) : chunks w (a ++ b) = a :: chunks w b := by
  cases a with
  | nil =>
    simp only [List.length_nil] at ha
    omega
  | cons x xs =>
    rw [List.cons_append, chunks_cons w hw]
    rw [← List.cons_append, ← ha, List.take_left, List.drop_left]

/-- Induction over byte lists whose length is a multiple of `w`: they are
built from `[]` by prepending `w`-byte blocks. -/
theorem chunkInd (w : Nat) (hw : 1 ≤ w) (P : List Nat → Prop) (h0 : P [])
    (hstep : ∀ a l, a.length = w → P l → P (a ++ l)) :
    ∀ l : List Nat, w ∣ l.length → P l := by
  have key : ∀ n, ∀ l : List Nat, l.length = n → w ∣ n → P l := by
    intro n
    induction n using Nat.strong_induction_on with
    | _ n ih =>
      intro l hn hdvd
      cases l with
      | nil => exact h0
      | cons x xs =>
        have hposn : 0 < n := by
          rw [← hn]; simp
        have hwle : w ≤ n := Nat.le_of_dvd hposn hdvd
        have hta : ((x :: xs).take w).length = w := by
          rw [List.length_take, hn]
          omega
        have hdl : ((x :: xs).drop w).length = n - w := by
          rw [List.length_drop, hn]
        have hrec : P ((x :: xs).drop w) := by
          apply ih (n - w) (by omega) _ hdl
          exact Nat.dvd_sub' hdvd dvd_rfl
        have hsplit : x :: xs = (x :: xs).take w ++ (x :: xs).drop w :=
          (List.take_append_drop w (x :: xs)).symm
        rw [hsplit]
        exact hstep _ _ hta hrec
  exact fun l hd => key l.length l rfl hd

theorem interleave2_nil (w : Nat) : interleave2 w [] = [] := rfl

theorem interleave2_append (w : Nat) (hw : 1 ≤ w) (a l : List Nat)
    (ha : a.length = w) :
    interleave2 w (a ++ l) = (a ++ a) ++ interleave2 w l := by
  unfold interleave2
  rw [chunks_append w hw a l ha]
  simp

theorem leftCh_interleave2 (w : Nat) (hw : 1 ≤ w) :
    ∀ l : List Nat, w ∣ l.length → leftCh w (interleave2 w l) = l := by
  apply chunkInd w hw (fun l => leftCh w (interleave2 w l) = l)
  · rfl
  · intro a l ha ih
    rw [interleave2_append w hw a l ha]
    unfold leftCh
    rw [chunks_append (2 * w) (by omega) (a ++ a) _ (by simp [ha]; omega)]
    simp only [List.map_cons, List.flatten_cons]
    rw [← ha, List.take_left, ha]
    unfold leftCh at ih
    rw [ih]

theorem rightCh_interleave2 (w : Nat) (hw : 1 ≤ w) :
    ∀ l : List Nat, w ∣ l.length → rightCh w (interleave2 w l) = l := by
  apply chunkInd w hw (fun l => rightCh w (interleave2 w l) = l)
  · rfl
  · intro a l ha ih
    rw [interleave2_append w hw a l ha]
    unfold rightCh
    rw [chunks_append (2 * w) (by omega) (a ++ a) _ (by simp [ha]; omega)]
    simp only [List.map_cons, List.flatten_cons]
    rw [← ha, List.drop_left, ha]
    unfold rightCh at ih
    rw [ih]

theorem interleave2_length (w : Nat) (hw : 1 ≤ w) :
    ∀ l : List Nat, w ∣ l.length →
      (interleave2 w l).length = 2 * l.length := by
  apply chunkInd w hw (fun l => (interleave2 w l).length = 2 * l.length)
  · rfl
  · intro a l ha ih
    rw [interleave2_append w hw a l ha]
    simp only [List.length_append, ih, ha]
    omega

theorem widthOK_pos {w : Nat} (h : widthOK w = true) : 1 ≤ w := by
  simp only [widthOK, Bool.or_eq_true, beq_iff_eq] at h
  omega

theorem max_mul_right (a b c : Nat) : max (a * c) (b * c) = max a b * c := by
  rcases Nat.le_total a b with h | h
  · rw [Nat.max_eq_right h, Nat.max_eq_right (Nat.mul_le_mul_right c h)]
  · rw [Nat.max_eq_left h, Nat.max_eq_left (Nat.mul_le_mul_right c h)]

theorem pad_eq (a b : List Nat) :
    (if a.length < b.length then
        a ++ List.replicate (b.length - a.length) 0
      else a) =
      a ++ List.replicate (max a.length b.length - a.length) 0 := by
  rcases Nat.lt_or_ge a.length b.length with h | h
  · rw [if_pos h, Nat.max_eq_right (Nat.le_of_lt h)]
  · rw [if_neg (Nat.not_lt.mpr h), Nat.max_eq_left h,
      Nat.sub_self, List.replicate_zero, List.append_nil]

/-! ### Evaluation of the Tier-3 pipeline on mono inputs -/

/-- Byte length of the right-hand buffer after the optional resampling step
of the Tier-3 pipeline (for mono inputs, where `tomono` is skipped). -/
def rightBufLen (rc : RateCv) (lw rw : WavBlob) : Nat :=
  if lw.rate ≠ rw.rate then
    (rc (readframes rw) rw.sampwidth rw.rate lw.rate).length
  else (readframes rw).length

/-- The left buffer after the byte-level padding step of the Tier-3
pipeline (for mono inputs): zero bytes are appended until the byte length
reaches that of the right buffer, if the latter is longer. -/
def paddedLeft (rc : RateCv) (lw rw : WavBlob) : List Nat :=
  readframes lw ++
    List.replicate (max (readframes lw).length (rightBufLen rc lw rw) -
      (readframes lw).length) 0

theorem paddedLeft_length (rc : RateCv) (lw rw : WavBlob) :
    (paddedLeft rc lw rw).length =
      max (readframes lw).length (rightBufLen rc lw rw) := by
  simp only [paddedLeft, List.length_append, List.length_replicate]
  have := Nat.le_max_left (readframes lw).length (rightBufLen rc lw rw)
  omega

theorem readframes_wf {b : WavBlob} (h : wellFormed b) :
    readframes b = b.payload := by
  unfold readframes
  rw [← h, List.take_length]

/-- Evaluation of `tier3` on two mono inputs: when the widths pass the
`audioop` checks and the padded left buffer stays sample-aligned, the
pipeline succeeds and produces the interleaving of the padded left buffer
with itself, at the left input's rate and width. -/
theorem tier3_mono_ok (rc : RateCv) (lw rw : WavBlob)
    (hlc : lw.nchannels = 1) (hrc : rw.nchannels = 1)
    (hwlOK : widthOK lw.sampwidth = true)
    (hneOK : lw.rate ≠ rw.rate →
      widthOK rw.sampwidth = true ∧ (readframes rw).length % rw.sampwidth = 0 ∧
      0 < lw.rate ∧ 0 < rw.rate)
    (halign : max (readframes lw).length (rightBufLen rc lw rw) %
      lw.sampwidth = 0) :
    tier3 rc lw rw = Except.ok
      ⟨lw.rate, lw.sampwidth, 2,
        (interleave2 lw.sampwidth (paddedLeft rc lw rw)).length /
          (2 * lw.sampwidth),
        interleave2 lw.sampwidth (paddedLeft rc lw rw)⟩ := by
  have hpadlen : (paddedLeft rc lw rw).length =
      max (readframes lw).length (rightBufLen rc lw rw) :=
    paddedLeft_length rc lw rw
  simp only [tier3]
  rw [if_neg (by simp [hlc]), if_neg (by simp [hrc])]
  simp only []
  by_cases hreq : lw.rate = rw.rate
  · rw [if_neg (by simp [hreq])]
    simp only []
    have hrbl : rightBufLen rc lw rw = (readframes rw).length := by
      simp [rightBufLen, hreq]
    rw [pad_eq]
    have hplB : readframes lw ++
        List.replicate (max (readframes lw).length (readframes rw).length -
          (readframes lw).length) 0 = paddedLeft rc lw rw := by
      simp [paddedLeft, hrbl]
    rw [hplB]
    simp only [tostereo11]
    rw [if_pos hwlOK, if_pos (by rw [hpadlen]; exact halign)]
  · obtain ⟨hwrOK, hralign, hlr, hrr⟩ := hneOK hreq
    rw [if_pos hreq]
    simp only [ratecvM]
    rw [if_pos hwrOK, if_pos hralign, if_pos ⟨hrr, hlr⟩]
    simp only []
    have hrbl : rightBufLen rc lw rw =
        (rc (readframes rw) rw.sampwidth rw.rate lw.rate).length := by
      simp [rightBufLen, hreq]
    rw [pad_eq]
    have hplB : readframes lw ++
        List.replicate (max (readframes lw).length
          (rc (readframes rw) rw.sampwidth rw.rate lw.rate).length -
          (readframes lw).length) 0 = paddedLeft rc lw rw := by
      simp [paddedLeft, hrbl]
    rw [hplB]
    simp only [tostereo11]
    rw [if_pos hwlOK, if_pos (by rw [hpadlen]; exact halign)]

/-- A mono 8 kHz, 8-bit, 3-frame input, longer than `blobA`. -/
def blobC : WavBlob := ⟨8000, 1, 1, 3, [7, 8, 9]⟩

/-- A well-formed mono 32-bit, 1-frame input. -/
def blobW4 : WavBlob := ⟨8000, 4, 1, 1, [9, 9, 9, 9]⟩

/-! ### Claim theorems -/

/-- C1.  The claim is false of the code and the code contradicts its own
stated intent ("Combine two mono WAV files into one stereo WAV file", "Mix
the two channels into a stereo file"): line 148 calls
`audioop.tostereo(left_data, left_width, 1, 1)`, which duplicates the left
buffer into both output channels; the right buffer, though read, converted
and padded, is never written.  Concretely, for the equal-rate, equal-width,
equal-length mono inputs `blobA` (samples 10, 20) and `blobB` (samples 30,
40), the Tier-3 output de-interleaves to left channel 10, 20 and right
channel 10, 20 — the right channel reproduces the FIRST input, not the
second. -/
theorem tier3_right_channel_is_left :
    tier3 rcId blobA blobB = Except.ok ⟨8000, 1, 2, 2, [10, 10, 20, 20]⟩ ∧
    leftCh 1 [10, 10, 20, 20] = blobA.payload ∧
    rightCh 1 [10, 10, 20, 20] = blobA.payload ∧
    blobA.payload ≠ blobB.payload :=
  ⟨rfl, rfl, rfl, by decide⟩

/-- C5.  For mono inputs of equal rate and equal (audioop-supported) width,
the Tier-3 pipeline zero-pads the shorter buffer at the end, succeeds, and
produces an output whose frame count is the maximum of the two inputs'
frame counts; the padding is a whole number of samples (a multiple of the
sample width), as visible in the de-interleaved left channel. -/
theorem tier3_pads_to_max (rc : RateCv) (lw rw : WavBlob)
    (hlc : lw.nchannels = 1) (hrc : rw.nchannels = 1)
    (hr : lw.rate = rw.rate) (hwEq : lw.sampwidth = rw.sampwidth)
    (hwOK : widthOK lw.sampwidth = true)
    (hlwf : wellFormed lw) (hrwf : wellFormed rw) :
    ∃ ob, tier3 rc lw rw = Except.ok ob ∧
      ob.nframes = max lw.nframes rw.nframes ∧
      leftCh lw.sampwidth ob.payload =
        lw.payload ++ List.replicate
          ((max lw.nframes rw.nframes - lw.nframes) * lw.sampwidth) 0 := by
  have hw1 : 1 ≤ lw.sampwidth := widthOK_pos hwOK
  have hrfl : readframes lw = lw.payload := readframes_wf hlwf
  have hrfr : readframes rw = rw.payload := readframes_wf hrwf
  have hlenL : (readframes lw).length = lw.nframes * lw.sampwidth := by
    rw [hrfl, hlwf, hlc]; ring
  have hlenR : (readframes rw).length = rw.nframes * lw.sampwidth := by
    rw [hrfr, hrwf, hrc, hwEq]; ring
  have hrbl : rightBufLen rc lw rw = rw.nframes * lw.sampwidth := by
    simp [rightBufLen, hr, hlenR]
  have hmax : max (readframes lw).length (rightBufLen rc lw rw) =
      max lw.nframes rw.nframes * lw.sampwidth := by
    rw [hlenL, hrbl, max_mul_right]
  have halign : max (readframes lw).length (rightBufLen rc lw rw) %
      lw.sampwidth = 0 := by
    rw [hmax]; exact Nat.mul_mod_left _ _
  have heval := tier3_mono_ok rc lw rw hlc hrc hwOK (fun h => absurd hr h) halign
  have hdvd : lw.sampwidth ∣ (paddedLeft rc lw rw).length := by
    rw [paddedLeft_length, hmax]
    exact Dvd.intro_left _ rfl
  have hpl : paddedLeft rc lw rw = lw.payload ++ List.replicate
      ((max lw.nframes rw.nframes - lw.nframes) * lw.sampwidth) 0 := by
    unfold paddedLeft
    rw [hmax, hlenL, hrfl, ← Nat.sub_mul]
  refine ⟨_, heval, ?_, ?_⟩
  · show (interleave2 lw.sampwidth (paddedLeft rc lw rw)).length /
      (2 * lw.sampwidth) = max lw.nframes rw.nframes
    rw [interleave2_length _ hw1 _ hdvd, paddedLeft_length, hmax]
    rw [show 2 * (max lw.nframes rw.nframes * lw.sampwidth) =
      max lw.nframes rw.nframes * (2 * lw.sampwidth) by ring]
    exact Nat.mul_div_cancel _ (by omega)
  · show leftCh lw.sampwidth
      (interleave2 lw.sampwidth (paddedLeft rc lw rw)) = _
    rw [leftCh_interleave2 _ hw1 _ hdvd, hpl]

/-- Witness for C5 at the concrete unequal-length pair `blobA` (2 frames)
and `blobC` (3 frames). -/
theorem tier3_pads_to_max_wit :
    ∃ ob, tier3 rcId blobA blobC = Except.ok ob ∧
      ob.nframes = max blobA.nframes blobC.nframes ∧
      leftCh blobA.sampwidth ob.payload =
        blobA.payload ++ List.replicate
          ((max blobA.nframes blobC.nframes - blobA.nframes) *
            blobA.sampwidth) 0 :=
  tier3_pads_to_max rcId blobA blobC rfl rfl rfl rfl rfl rfl rfl

/-- C6 (amended).  When the Tier-3 pipeline succeeds on mono inputs it
adopts the left stream's rate and width and leaves the left samples
unmodified at the front of the left channel (only the right stream is ever
passed to the resampler); success is guaranteed whenever the padded left
buffer stays aligned to the left sample width. -/
theorem tier3_adopts_left_params (rc : RateCv) (lw rw : WavBlob)
    (hlc : lw.nchannels = 1) (hrc : rw.nchannels = 1)
    (hwlOK : widthOK lw.sampwidth = true) (hwrOK : widthOK rw.sampwidth = true)
    (hlr : 0 < lw.rate) (hrr : 0 < rw.rate)
    (hlwf : wellFormed lw) (hrwf : wellFormed rw)
    (halign : max (readframes lw).length (rightBufLen rc lw rw) %
      lw.sampwidth = 0) :
    ∃ ob, tier3 rc lw rw = Except.ok ob ∧ ob.rate = lw.rate ∧
      ob.sampwidth = lw.sampwidth ∧ ob.nchannels = 2 ∧
      (leftCh lw.sampwidth ob.payload).take lw.payload.length = lw.payload := by
  have hw1 : 1 ≤ lw.sampwidth := widthOK_pos hwlOK
  have hralign : (readframes rw).length % rw.sampwidth = 0 := by
    rw [readframes_wf hrwf, hrwf, hrc]
    simp [Nat.mul_mod_left]
  have heval := tier3_mono_ok rc lw rw hlc hrc hwlOK
    (fun _ => ⟨hwrOK, hralign, hlr, hrr⟩) halign
  have hdvd : lw.sampwidth ∣ (paddedLeft rc lw rw).length := by
    rw [paddedLeft_length]
    exact Nat.dvd_of_mod_eq_zero halign
  refine ⟨_, heval, rfl, rfl, rfl, ?_⟩
  show (leftCh lw.sampwidth
    (interleave2 lw.sampwidth (paddedLeft rc lw rw))).take lw.payload.length =
    lw.payload
  rw [leftCh_interleave2 _ hw1 _ hdvd]
  unfold paddedLeft
  rw [readframes_wf hlwf]
  exact List.take_left _ _

/-- Witness for the amended C6 at the concrete width-mismatched pair
`blobL2` (16-bit) and `blobW4` (32-bit), whose buffers stay aligned. -/
theorem tier3_adopts_left_params_wit :
    ∃ ob, tier3 rcId blobL2 blobW4 = Except.ok ob ∧ ob.rate = blobL2.rate ∧
      ob.sampwidth = blobL2.sampwidth ∧ ob.nchannels = 2 ∧
      (leftCh blobL2.sampwidth ob.payload).take blobL2.payload.length =
        blobL2.payload :=
  tier3_adopts_left_params rcId blobL2 blobW4 rfl rfl rfl rfl
    (by decide) (by decide) rfl rfl (by decide)

/-- Counterexample to C6 as stated: a sample-width mismatch CAN be a hard
failure.  The well-formed mono inputs `blobL2` (width 2, 4 payload bytes)
and `blobR1` (width 1, 5 payload bytes) have equal rates, but the byte-level
padding of the left buffer to 5 bytes leaves it misaligned with respect to
the left width 2, so `audioop.tostereo` raises and `combine_wav_files`
returns False. -/
theorem width_mismatch_hard_failure :
    wellFormed blobL2 ∧ wellFormed blobR1 ∧
    tier3 rcId blobL2 blobR1 = Except.error PyErr.audioopError ∧
    combine_wav_files worldNoTools rcId fsWidthMix
      "left.wav" "right.wav" "out.wav" =
      (fsSet fsWidthMix "out.wav" FileVal.stub, some false) :=
  ⟨rfl, rfl, rfl, rfl⟩


/-- C10.  `combine_wav_files` never propagates an exception to its caller:
for every world, filesystem and triple of paths the call returns a boolean
(`some true` or `some false`), because every error the body can raise
(`FileNotFoundError`, `CalledProcessError`, `wave.Error`, `audioop.error`)
is a subclass of `Exception` and is therefore caught by the outermost
`except Exception` handler, which returns `False`. -/
theorem combine_never_raises :
    ∀ (w : World) (rc : RateCv) (fs : FS) (l r o : String),
      (combine_wav_files w rc fs l r o).2 = some true ∨
      (combine_wav_files w rc fs l r o).2 = some false := by
  intro w rc fs l r o
  unfold combine_wav_files
  rcases combineInner w rc fs l r o with ⟨fs1, res⟩
  rcases res with e | u
  · right
    cases e <;> rfl
  · left
    rfl

/-- Counterexample to C3.  With ffmpeg present but exiting non-zero, and
sox present and able to succeed, `combine_wav_files` returns Failure with
the filesystem untouched: the `CalledProcessError` raised by `check=True`
escapes to the outermost handler instead of falling through to Tier 2.
The second conjunct shows the very same sox configuration succeeds when
ffmpeg is absent, so the Tier-2 path would have produced the output. -/
theorem ffmpeg_nonzero_exit_no_fallthrough :
    combine_wav_files worldFfmpegFails rcId fsAB
      "left.wav" "right.wav" "out.wav" = (fsAB, some false) ∧
    combine_wav_files ⟨false, 0, blobA, true, 0, blobA⟩ rcId fsAB
      "left.wav" "right.wav" "out.wav" =
      (fsSet fsAB "out.wav" (FileVal.wav blobA), some true) :=
  ⟨rfl, rfl⟩

/-- C3 (amended).  Fallthrough between tiers happens only when a tool is
ABSENT (`FileNotFoundError`), never on a non-zero exit: a failing
invocation of a present ffmpeg, or of a present sox, is caught by the
outermost handler and reported as Failure directly, with no later tier
attempted and the filesystem unchanged; a present sox that exits zero (with
ffmpeg absent) is final success. -/
theorem tool_fallthrough_only_on_absence :
    ∀ (w : World) (rc : RateCv) (fs : FS) (l r o : String),
      (w.ffmpegPresent = true → w.ffmpegExit ≠ 0 →
        combine_wav_files w rc fs l r o = (fs, some false)) ∧
      (w.ffmpegPresent = false → w.soxPresent = true → w.soxExit ≠ 0 →
        combine_wav_files w rc fs l r o = (fs, some false)) ∧
      (w.ffmpegPresent = false → w.soxPresent = true → w.soxExit = 0 →
        combine_wav_files w rc fs l r o =
          (fsSet fs o (FileVal.wav w.soxResult), some true)) := by
  intro w rc fs l r o
  refine ⟨?_, ?_, ?_⟩
  · intro h1 h2
    simp [combine_wav_files, combineInner, h1, h2, isExcSubclass]
  · intro h1 h2 h3
    simp [combine_wav_files, combineInner, h1, h2, h3, isExcSubclass]
  · intro h1 h2 h3
    simp [combine_wav_files, combineInner, h1, h2, h3]

/-- Witness for the amended C3 at the concrete failing-ffmpeg world. -/
theorem tool_fallthrough_only_on_absence_wit :
    combine_wav_files worldFfmpegFails rcId fsAB
      "left.wav" "right.wav" "out.wav" = (fsAB, some false) :=
  (tool_fallthrough_only_on_absence worldFfmpegFails rcId fsAB
    "left.wav" "right.wav" "out.wav").1 rfl (by decide)

/-- Counterexample to C4.  A combine invocation that returns Failure CAN
leave a partial artifact at the output path: with no external tools, inputs
`blobL2` and the truncated `blobTrunc` make `audioop.tostereo` raise after
`wave.open(output_file, 'wb')` has already created the output file, so the
call returns `False` while a zero-byte placeholder remains at
`"out.wav"`. -/
theorem failed_combine_leaves_artifact :
    combine_wav_files worldNoTools rcId fsTrunc
      "left.wav" "right.wav" "out.wav" =
      (fsSet fsTrunc "out.wav" FileVal.stub, some false) ∧
    fsGet (fsSet fsTrunc "out.wav" FileVal.stub) "out.wav" =
      some FileVal.stub :=
  ⟨rfl, rfl⟩

/-- C4 (amended).  The output path is only ever touched after both inputs
open successfully in Tier 3: a Failure produced at Tier 1 or Tier 2, or by
a missing/unreadable input, leaves the filesystem unchanged; but a Tier-3
pipeline error occurring after the output has been opened leaves the
zero-byte placeholder file at the output path (no temporary-file-and-rename
scheme exists). -/
theorem combine_artifact_boundary :
    ∀ (w : World) (rc : RateCv) (fs : FS) (l r o : String),
      (w.ffmpegPresent = true → w.ffmpegExit ≠ 0 →
        combine_wav_files w rc fs l r o = (fs, some false)) ∧
      (w.ffmpegPresent = false → w.soxPresent = true → w.soxExit ≠ 0 →
        combine_wav_files w rc fs l r o = (fs, some false)) ∧
      (∀ e, w.ffmpegPresent = false → w.soxPresent = false →
        openWav fs l = Except.error e →
        combine_wav_files w rc fs l r o = (fs, some false)) ∧
      (∀ lb e, w.ffmpegPresent = false → w.soxPresent = false →
        openWav fs l = Except.ok lb → openWav fs r = Except.error e →
        combine_wav_files w rc fs l r o = (fs, some false)) ∧
      (∀ lb rb e, w.ffmpegPresent = false → w.soxPresent = false →
        openWav fs l = Except.ok lb → openWav fs r = Except.ok rb →
        tier3 rc lb rb = Except.error e →
        combine_wav_files w rc fs l r o =
          (fsSet fs o FileVal.stub, some false)) := by
  intro w rc fs l r o
  refine ⟨?_, ?_, ?_, ?_, ?_⟩
  · intro h1 h2
    simp [combine_wav_files, combineInner, h1, h2, isExcSubclass]
  · intro h1 h2 h3
    simp [combine_wav_files, combineInner, h1, h2, h3, isExcSubclass]
  · intro e h1 h2 h3
    cases e <;>
      simp [combine_wav_files, combineInner, h1, h2, h3, isExcSubclass]
  · intro lb e h1 h2 h3 h4
    cases e <;>
      simp [combine_wav_files, combineInner, h1, h2, h3, h4, isExcSubclass]
  · intro lb rb e h1 h2 h3 h4 h5
    cases e <;>
      simp [combine_wav_files, combineInner, h1, h2, h3, h4, h5, isExcSubclass]

/-- Witness for the amended C4 at the concrete truncated-input run. -/
theorem combine_artifact_boundary_wit :
    combine_wav_files worldNoTools rcId fsTrunc
      "left.wav" "right.wav" "out.wav" =
      (fsSet fsTrunc "out.wav" FileVal.stub, some false) :=
  (combine_artifact_boundary worldNoTools rcId fsTrunc
    "left.wav" "right.wav" "out.wav").2.2.2.2 blobL2 blobTrunc
    PyErr.audioopError rfl rfl rfl rfl rfl


/-- Counterexample to C2.  In the `candor_turn_freeze_omni` loop of
`process_turntaking_models`, a source listing with one incomplete UUID
directory (missing `output.wav`) followed by one complete one produces the
single output `sample_2.wav`, not `sample_1.wav`: the counter is
incremented for every UUID-named directory, so the failed sample leaves a
gap in the numbering, contradicting the claimed gapless
`sample_1..sample_N` invariant. -/
theorem turntaking_counter_gap :
    foNumbers 1 [⟨true, true, false, false⟩, ⟨true, true, true, true⟩] = [2] ∧
    foNumbers 1 [⟨true, true, false, false⟩, ⟨true, true, true, true⟩] ≠ [1] :=
  ⟨rfl, by decide⟩

/-- C2 (amended).  The only-increment-on-success discipline holds in
`process_numeric_directories` (and `process_audio_files`): its outputs are
numbered gaplessly `c, c+1, ...` one per successful sample.  In
`process_turntaking_models`, however, the counter is incremented once per
UUID-named directory regardless of success, so failed samples leave gaps;
in the dgslm/moshi loop the two destination directories deliberately share
the counter, keeping `sample_<n>` aligned across the two models. -/
theorem walker_counter_behavior :
    (∀ (c : Nat) (items : List NumItem),
      numericNumbers c items = List.range' c (numericSuccCount items)) ∧
    dmNumbers 1 [⟨true, false, true⟩, ⟨true, true, true⟩] = ([2], [1, 2]) ∧
    foNumbers 1 [⟨true, true, false, false⟩, ⟨true, true, true, true⟩] = [2] := by
  refine ⟨?_, rfl, rfl⟩
  intro c items
  induction items generalizing c with
  | nil => rfl
  | cons i rest ih =>
    simp only [numericNumbers, numericSuccCount]
    by_cases h : (i.hasLeft && i.hasRight && i.combineOk) = true
    · rw [if_pos h, List.countP_cons, h, ih]
      rfl
    · have h2 : (i.hasLeft && i.hasRight && i.combineOk) = false := by
        simp only [Bool.not_eq_true] at h
        exact h
      rw [if_neg h, List.countP_cons, h2, ih c]
      rfl

/-- C8.  The passthrough copy (`shutil.copy2`) produces an output
byte-identical to the source with no format validation or re-encoding: it
works on arbitrary byte contents and writes exactly the source bytes; in
particular the turntaking/dGSLM branch of `process_audio_files` copies the
pre-merged stereo file verbatim (and advances the counter) rather than
re-merging it. -/
theorem copy_is_byte_identical :
    (∀ (fs : ByteFS) (s d : String) (b : List Nat), bget fs s = some b →
      copy2 fs s d = some ((d, b) :: fs) ∧ bget ((d, b) :: fs) d = some b) ∧
    (∀ (fs : ByteFS) (p o : String) (c : Nat) (b : List Nat),
      bget fs p = some b →
      turnDgslmStep fs p o c = ((o, b) :: fs, c + 1) ∧
      bget ((o, b) :: fs) o = some b) := by
  constructor
  · intro fs s d b h
    refine ⟨?_, ?_⟩
    · simp [copy2, h]
    · simp [bget]
  · intro fs p o c b h
    refine ⟨?_, ?_⟩
    · simp [turnDgslmStep, h]
    · simp [bget]

/-- Witness for C8 at a concrete one-file filesystem. -/
theorem copy_is_byte_identical_wit :
    copy2 [("src.wav", [1, 2, 3])] "src.wav" "dst.wav" =
      some [("dst.wav", [1, 2, 3]), ("src.wav", [1, 2, 3])] ∧
    bget [("dst.wav", [1, 2, 3]), ("src.wav", [1, 2, 3])] "dst.wav" =
      some [1, 2, 3] :=
  copy_is_byte_identical.1 [("src.wav", [1, 2, 3])] "src.wav" "dst.wav"
    [1, 2, 3] rfl


theorem ordIns_perm (a : String) (l : List String) :
    List.Perm (ordIns a l) (a :: l) := by
  induction l with
  | nil => exact List.Perm.refl _
  | cons b l ih =>
    unfold ordIns
    by_cases h : strNatVal a ≤ strNatVal b
    · rw [if_pos h]
    · rw [if_neg h]
      exact (ih.cons b).trans (List.Perm.swap a b l)

theorem sortNumeric_perm (l : List String) :
    List.Perm (sortNumeric l) l := by
  induction l with
  | nil => exact List.Perm.refl _
  | cons a l ih =>
    exact (ordIns_perm a (sortNumeric l)).trans (ih.cons a)

theorem pairwise_ordIns (a : String) (l : List String)
    (h : List.Pairwise (fun x y => strNatVal x ≤ strNatVal y) l) :
    List.Pairwise (fun x y => strNatVal x ≤ strNatVal y) (ordIns a l) := by
  induction l with
  | nil => simp [ordIns]
  | cons b l ih =>
    rw [List.pairwise_cons] at h
    obtain ⟨hb, hl⟩ := h
    unfold ordIns
    by_cases hab : strNatVal a ≤ strNatVal b
    · rw [if_pos hab, List.pairwise_cons]
      refine ⟨?_, ?_⟩
      · intro x hx
        rcases List.mem_cons.mp hx with rfl | hx
        · exact hab
        · exact le_trans hab (hb x hx)
      · rw [List.pairwise_cons]
        exact ⟨hb, hl⟩
    · rw [if_neg hab, List.pairwise_cons]
      refine ⟨?_, ih hl⟩
      intro x hx
      have hx2 : x ∈ a :: l := (ordIns_perm a l).mem_iff.mp hx
      rcases List.mem_cons.mp hx2 with rfl | hx2
      · exact le_of_not_le hab
      · exact hb x hx2

theorem sortNumeric_pairwise (l : List String) :
    List.Pairwise (fun x y => strNatVal x ≤ strNatVal y) (sortNumeric l) := by
  induction l with
  | nil => simp [sortNumeric]
  | cons a l ih => exact pairwise_ordIns a _ ih

/-- Counterexample to C7 as universally stated.  Distinct directory names
can share a numeric value via leading zeros: for the listing `["1", "01"]`
the processing order is `["1", "01"]` (stable sort), whose numeric values
1, 1 are NOT strictly ascending. -/
theorem numeric_order_tie_not_strict :
    numericDirOrder ["1", "01"] (fun _ => true) = ["1", "01"] ∧
    ¬ List.Pairwise (fun x y : Nat => x < y)
      ((numericDirOrder ["1", "01"] (fun _ => true)).map strNatVal) := by
  refine ⟨rfl, ?_⟩
  intro h
  rw [show (numericDirOrder ["1", "01"] (fun _ => true)).map strNatVal =
    [1, 1] from rfl, List.pairwise_cons] at h
  exact absurd (h.1 1 (by simp)) (by omega)

/-- C7 (amended).  `process_numeric_directories` processes purely-numeric
directory names in ascending numeric order: the order is always
non-decreasing in `int` value, it is strictly ascending whenever the
numeric values are pairwise distinct (ties are possible only through
leading zeros), and in particular `"2", "10", "1"` are processed in the
order 1, 2, 10 — numeric, not lexicographic. -/
theorem numeric_order_sorted :
    (∀ (entries : List String) (isDir : String → Bool),
      List.Pairwise (fun x y : Nat => x ≤ y)
        ((numericDirOrder entries isDir).map strNatVal)) ∧
    (∀ (entries : List String) (isDir : String → Bool),
      ((entries.filter (fun s => isDigitName s && isDir s)).map
        strNatVal).Nodup →
      List.Pairwise (fun x y : Nat => x < y)
        ((numericDirOrder entries isDir).map strNatVal)) ∧
    numericDirOrder ["2", "10", "1"] (fun _ => true) = ["1", "2", "10"] := by
  refine ⟨?_, ?_, rfl⟩
  · intro entries isDir
    rw [List.pairwise_map]
    exact sortNumeric_pairwise _
  · intro entries isDir hnd
    have hle : List.Pairwise (fun x y : Nat => x ≤ y)
        ((numericDirOrder entries isDir).map strNatVal) := by
      rw [List.pairwise_map]
      exact sortNumeric_pairwise _
    have hperm : List.Perm ((numericDirOrder entries isDir).map strNatVal)
        ((entries.filter (fun s => isDigitName s && isDir s)).map strNatVal) :=
      (sortNumeric_perm _).map strNatVal
    have hnd2 : ((numericDirOrder entries isDir).map strNatVal).Nodup :=
      hperm.nodup_iff.mpr hnd
    exact (hle.and hnd2).imp (fun h => lt_of_le_of_ne h.1 h.2)

/-- Witness for the amended C7 at the listing 2, 10, 1. -/
theorem numeric_order_sorted_wit :
    List.Pairwise (fun x y : Nat => x < y)
      ((numericDirOrder ["2", "10", "1"] (fun _ => true)).map strNatVal) :=
  numeric_order_sorted.2.1 ["2", "10", "1"] (fun _ => true) (by decide)


theorem eatHex_iff (n : Nat) :
    ∀ l r : List Char, eatHex n l = some r ↔
      ∃ g, hexGroup n g ∧ l = g ++ r := by
  induction n with
  | zero =>
    intro l r
    constructor
    · intro h
      have hlr : l = r := Option.some.inj h
      subst hlr
      exact ⟨[], ⟨rfl, by intro c hc; cases hc⟩, rfl⟩
    · rintro ⟨g, ⟨hg0, _⟩, rfl⟩
      have : g = [] := List.eq_nil_of_length_eq_zero hg0
      subst this
      rfl
  | succ n ih =>
    intro l r
    constructor
    · intro h
      cases l with
      | nil => exact absurd h (by simp [eatHex])
      | cons c l2 =>
        simp only [eatHex] at h
        by_cases hc : isHexLower c = true
        · rw [if_pos hc] at h
          obtain ⟨g, ⟨hgl, hgh⟩, rfl⟩ := (ih l2 r).mp h
          refine ⟨c :: g, ⟨by simp [hgl], ?_⟩, rfl⟩
          intro x hx
          rcases List.mem_cons.mp hx with rfl | hx
          · exact hc
          · exact hgh x hx
        · rw [if_neg hc] at h
          exact absurd h (by simp)
    · rintro ⟨g, ⟨hgl, hgh⟩, rfl⟩
      cases g with
      | nil => exact absurd hgl (by simp)
      | cons c g2 =>
        simp only [List.cons_append, eatHex]
        rw [if_pos (hgh c (by simp))]
        apply (ih _ _).mpr
        refine ⟨g2, ⟨by simpa using hgl, ?_⟩, rfl⟩
        intro x hx
        exact hgh x (by simp [hx])

theorem eatHex_append {n : Nat} {g : List Char} (hg : hexGroup n g)
    (r : List Char) : eatHex n (g ++ r) = some r :=
  (eatHex_iff n (g ++ r) r).mpr ⟨g, hg, rfl⟩

theorem eatDash_cons (l : List Char) : eatDash ('-' :: l) = some l := by
  simp [eatDash]

theorem eatDash_iff : ∀ l r : List Char,
    eatDash l = some r ↔ l = '-' :: r := by
  intro l r
  cases l with
  | nil => simp [eatDash]
  | cons c l2 =>
    simp only [eatDash]
    by_cases hc : c = '-'
    · subst hc
      simp
    · rw [if_neg hc]
      constructor
      · intro h
        exact absurd h (by simp)
      · intro h
        injection h with h1 _
        exact absurd h1 hc

theorem matchUuid_iff (l : List Char) :
    matchUuid l = true ↔ ∃ u r, uuidShaped u ∧ l = u ++ r := by
  unfold matchUuid
  constructor
  · intro h
    rw [Option.isSome_iff_exists] at h
    obtain ⟨rest, h⟩ := h
    rw [Option.bind_eq_some] at h
    obtain ⟨l8, h8, h⟩ := h
    rw [Option.bind_eq_some] at h8
    obtain ⟨l7, h7, h8⟩ := h8
    rw [Option.bind_eq_some] at h7
    obtain ⟨l6, h6, h7⟩ := h7
    rw [Option.bind_eq_some] at h6
    obtain ⟨l5, h5, h6⟩ := h6
    rw [Option.bind_eq_some] at h5
    obtain ⟨l4, h4, h5⟩ := h5
    rw [Option.bind_eq_some] at h4
    obtain ⟨l3, h3, h4⟩ := h4
    rw [Option.bind_eq_some] at h3
    obtain ⟨l2, h2, h3⟩ := h3
    rw [Option.bind_eq_some] at h2
    obtain ⟨l1, h1, h2⟩ := h2
    obtain ⟨a, ha, rfl⟩ := (eatHex_iff 8 l l1).mp h1
    have hd1 := (eatDash_iff l1 l2).mp h2
    obtain ⟨b, hb, hl2⟩ := (eatHex_iff 4 l2 l3).mp h3
    have hd2 := (eatDash_iff l3 l4).mp h4
    obtain ⟨c, hc, hl4⟩ := (eatHex_iff 4 l4 l5).mp h5
    have hd3 := (eatDash_iff l5 l6).mp h6
    obtain ⟨d, hd, hl6⟩ := (eatHex_iff 4 l6 l7).mp h7
    have hd4 := (eatDash_iff l7 l8).mp h8
    obtain ⟨e, he, hl8⟩ := (eatHex_iff 12 l8 rest).mp h
    refine ⟨a ++ ('-' :: (b ++ ('-' :: (c ++ ('-' :: (d ++ ('-' :: e))))))),
      rest, ⟨a, b, c, d, e, ha, hb, hc, hd, he, rfl⟩, ?_⟩
    subst hd1 hl2 hd2 hl4 hd3 hl6 hd4 hl8
    simp
  · rintro ⟨u, r, ⟨a, b, c, d, e, ha, hb, hc, hd, he, rfl⟩, rfl⟩
    have hrw : (a ++ ('-' :: (b ++ ('-' :: (c ++ ('-' :: (d ++ ('-' :: e)))))))) ++ r =
        a ++ ('-' :: (b ++ ('-' :: (c ++ ('-' :: (d ++ ('-' :: (e ++ r)))))))) := by
      simp
    rw [hrw, eatHex_append ha, Option.some_bind, eatDash_cons,
      Option.some_bind, eatHex_append hb, Option.some_bind, eatDash_cons,
      Option.some_bind, eatHex_append hc, Option.some_bind, eatDash_cons,
      Option.some_bind, eatHex_append hd, Option.some_bind, eatDash_cons,
      Option.some_bind, eatHex_append he]
    rfl

/-- C9.  `extract_sample_id` returns the first 8 characters of the
directory name exactly when the name has a lowercase-hex UUID-shaped
prefix (8-4-4-4-12 groups), regardless of what follows the prefix
(`re.match` anchors only at the start), and returns `None` for every other
name — including names whose UUID is written with uppercase hex digits,
since the character class `[0-9a-f]` is lowercase-only. -/
theorem extract_sample_id_correct :
    (∀ s : String, (∃ u r, uuidShaped u ∧ s.data = u ++ r) →
      extract_sample_id s = some (String.mk (s.data.take 8))) ∧
    (∀ s : String, (¬ ∃ u r, uuidShaped u ∧ s.data = u ++ r) →
      extract_sample_id s = none) ∧
    extract_sample_id "ABCDEF12-3456-7890-abcd-ef1234567890" = none := by
  refine ⟨?_, ?_, rfl⟩
  · intro s h
    have hm : matchUuid s.data = true := (matchUuid_iff s.data).mpr h
    simp [extract_sample_id, extractId, hm]
  · intro s h
    have hm : matchUuid s.data = false := by
      cases hb : matchUuid s.data
      · rfl
      · exact absurd ((matchUuid_iff s.data).mp hb) h
    simp [extract_sample_id, extractId, hm]

/-- Witness for C9 at a lowercase UUID name with trailing characters. -/
theorem extract_sample_id_correct_wit :
    extract_sample_id "12345678-1234-1234-1234-123456789abcXYZ" =
      some "12345678" := by
  have h := extract_sample_id_correct.1 "12345678-1234-1234-1234-123456789abcXYZ"
    ⟨"12345678-1234-1234-1234-123456789abc".data, "XYZ".data,
      ⟨"12345678".data, "1234".data, "1234".data, "1234".data,
        "123456789abc".data,
        ⟨by decide, by decide⟩, ⟨by decide, by decide⟩, ⟨by decide, by decide⟩,
        ⟨by decide, by decide⟩, ⟨by decide, by decide⟩, by decide⟩,
      by decide⟩
  exact h

end ProcessAudio
